import Mathlib

/-!
Verification of the wptcoverage coverage-diff tool (src/src/main.rs).

The embedding below translates the pure core of the program:

* data model: the PathCoverage record parsed from the coverage service
  (the field coveragePercent, an f64 that no modelled operation reads, is
  omitted; the floating-point output percentages of run() are likewise out
  of the shallow embedding);
* the diff engine: coverage_difference, zero_coverage, get_differences;
* the cache file-name construction of get_suite_data;
* the tree walk of get_suite_data, with the store client (HTTP fetch plus
  on-disk cache) abstracted as a total function from path to node, and an
  explicit fuel parameter standing for termination of the while loop.

A CoverageMap (a Rust BTreeMap keyed by path) is modelled as an association
list with unique keys; lookupA models keyed access and insertMap models
keyed insert-or-overwrite.
-/

/-- One node of a coverage tree, as parsed from the service JSON
(struct PathCoverage in main.rs).  In the source, children is an optional
vector of FileCoverage records of which the walker uses only the path
field, so the embedding retains just those path strings.  Hit counts and
line counters are i64 in the source, modelled as Int. -/
structure PathCoverage where
  changeset : String
  children : Option (List String)
  linesCovered : Int
  linesMissed : Int
  linesTotal : Int
  name : String
  path : String
  path_type : String
  coverage : Option (List Int)
  deriving Repr, DecidableEq

/-- The five per-line classifications (enum CoverageType in main.rs). -/
inductive CoverageType where
  | NotRun
  | NotCovered
  | Suite1Only
  | Suite2Only
  | Both
  deriving Repr, DecidableEq

/-- The per-file diff result (struct CoverageDifference in main.rs). -/
structure CoverageDifference where
  line_differences : List CoverageType
  line_count : Int
  coverable_count : Int
  covered_count : Int
  suite_1_only_count : Int
  suite_2_only_count : Int
  both_count : Int
  deriving Repr, DecidableEq

/-- The match expression of coverage_difference, arm by arm in source
order: (-1,-1), then (0,0), then the two guarded arms, then the
catch-all.  The literal arms do not satisfy the later guards, so the
if-chain order is exactly the match order. -/
def classifyPair (x y : Int) : CoverageType :=
  if x = -1 ∧ y = -1 then CoverageType.NotRun
  else if x = 0 ∧ y = 0 then CoverageType.NotCovered
  else if 0 < x ∧ y ≤ 0 then CoverageType.Suite1Only
  else if x ≤ 0 ∧ 0 < y then CoverageType.Suite2Only
  else CoverageType.Both

/-- Number of occurrences of a classification in a list. -/
def countC (c : CoverageType) : List CoverageType → Nat
  | [] => 0
  | x :: rest => (if x = c then 1 else 0) + countC c rest

/-- fn coverage_difference.  The Rust loop walks the zip of the two
sequences, pushing one classification per pair and incrementing the
matching counter as it goes (coverable_count starts at line_count and is
decremented on each NotRun pair); the final counters therefore equal the
occurrence counts of each classification in line_differences, which is how
they are computed here.  line_count is the minimum of the two lengths in
the source whether or not the lengths agree (the if only adds a warning
print). -/
def coverage_difference (suite_1_coverage suite_2_coverage : List Int) :
    CoverageDifference :=
  let line_count : Int :=
    Int.ofNat (min suite_1_coverage.length suite_2_coverage.length)
  let line_differences : List CoverageType :=
    (suite_1_coverage.zip suite_2_coverage).map fun p => classifyPair p.1 p.2
  let suite_1_only_count := countC CoverageType.Suite1Only line_differences
  let suite_2_only_count := countC CoverageType.Suite2Only line_differences
  let both_count := countC CoverageType.Both line_differences
  let not_run_count := countC CoverageType.NotRun line_differences
  { line_differences := line_differences
    line_count := line_count
    coverable_count := line_count - Int.ofNat not_run_count
    covered_count :=
      Int.ofNat (both_count + suite_1_only_count + suite_2_only_count)
    suite_1_only_count := Int.ofNat suite_1_only_count
    suite_2_only_count := Int.ofNat suite_2_only_count
    both_count := Int.ofNat both_count }

/-- fn zero_coverage: every entry becomes 0 except -1 entries, which stay
-1. -/
def zero_coverage (other_data : List Int) : List Int :=
  other_data.map fun x => if x = -1 then -1 else 0

/-- Keyed lookup in an association list (BTreeMap get). -/
def lookupA {α : Type} (k : String) : List (String × α) → Option α
  | [] => none
  | (k', v) :: rest => if k' = k then some v else lookupA k rest

/-- Keyed insert-or-overwrite in an association list (BTreeMap insert). -/
def insertMap {α : Type} (k : String) (v : α) :
    List (String × α) → List (String × α)
  | [] => [(k, v)]
  | (k', v') :: rest =>
    if k' = k then (k, v) :: rest else (k', v') :: insertMap k v rest

/-- The keys of an association list are pairwise distinct (the BTreeMap
invariant). -/
def keysNodup {α : Type} (l : List (String × α)) : Prop :=
  (l.map Prod.fst).Nodup

instance {α : Type} (l : List (String × α)) : Decidable (keysNodup l) := by
  unfold keysNodup; infer_instance

/-- A coverage map for one suite: path to node (type CoverageMap in
main.rs). -/
abbrev CoverageMap : Type := List (String × PathCoverage)

/-- The body of the first loop of get_differences, for one entry (path,
suite_1_coverage) of the suite 1 map: directory-typed entries are skipped;
entries without a coverage vector are skipped; if suite 2 has the path,
its coverage vector (when present) is diffed against; if suite 2 lacks the
path, a zero-coverage vector is synthesized. -/
def diffEntry1 (suite_2_data : CoverageMap) (path : String)
    (suite_1_coverage : PathCoverage) : Option CoverageDifference :=
  if suite_1_coverage.path_type = "directory" then none
  else
    match suite_1_coverage.coverage with
    | none => none
    | some suite_1_coverage_vec =>
      match lookupA path suite_2_data with
      | some suite_2_coverage =>
        match suite_2_coverage.coverage with
        | some suite_2_coverage_vec =>
          some (coverage_difference suite_1_coverage_vec suite_2_coverage_vec)
        | none => none
      | none =>
        some (coverage_difference suite_1_coverage_vec
          (zero_coverage suite_1_coverage_vec))

/-- The body of the second loop of get_differences, for one entry (path,
suite_2_coverage) of the suite 2 map: only paths absent from the suite 1
map are considered, and a zero-coverage vector is synthesized for suite 1.
Note that this loop has no directory check. -/
def diffEntry2 (suite_1_data : CoverageMap) (path : String)
    (suite_2_coverage : PathCoverage) : Option CoverageDifference :=
  if (lookupA path suite_1_data).isSome then none
  else
    match suite_2_coverage.coverage with
    | some suite_2_coverage_vec =>
      some (coverage_difference (zero_coverage suite_2_coverage_vec)
        suite_2_coverage_vec)
    | none => none

/-- fn get_differences.  The source inserts into a fresh BTreeMap rv: the
first loop inserts keys of the suite 1 map, the second loop only keys
absent from the suite 1 map, so the two loops insert disjoint key sets and
each loop visits each key at most once; the result map is therefore
faithfully modelled as the concatenation of the entries each loop
produces, accessed through lookupA. -/
def get_differences (suite_1_data suite_2_data : CoverageMap) :
    List (String × CoverageDifference) :=
  (suite_1_data.filterMap fun pr =>
    (diffEntry1 suite_2_data pr.1 pr.2).map fun d => (pr.1, d)) ++
  (suite_2_data.filterMap fun pr =>
    (diffEntry2 suite_1_data pr.1 pr.2).map fun d => (pr.1, d))

/-- The cache file name built in get_suite_data for one coverage-tree
path: every slash replaced by a dash, with a .json suffix appended.  The
source calls str replace with the one-character pattern, which replaces
each occurrence of the slash character by a dash; for a one-character
pattern and replacement this is exactly a character-wise map. -/
def cache_file_name (gecko_path : String) : String :=
  String.mk (gecko_path.data.map fun c => if c = '/' then '-' else c) ++ ".json"

/-- The store client seen by the tree walk: for a fixed changeset and
suite, each path yields one parsed PathCoverage document (from the cache
file when present, otherwise fetched and cached; either way the walk
receives the document for that path). -/
def Store : Type := String → PathCoverage

/-- The while loop of fn get_suite_data.  The stack is a list whose head
is the top (Vec push and pop act on the same end); popping a path fetches
its node, pushes the child paths in declaration order (so the last child
ends up on top, modelled by consing the reversed child list), and records
the node under the popped path.  The fuel argument makes the loop a total
function: none means the fuel ran out before the stack emptied, and
termination of the source loop is the existence of sufficient fuel.  The
returned list of visited paths (in pop order) records each fetch. -/
def get_suite_data_go (store : Store) :
    Nat → List String → List (String × PathCoverage) →
    Option (List String × List (String × PathCoverage))
  | _, [], rv => some ([], rv)
  | 0, _ :: _, _ => none
  | fuel + 1, gecko_path :: stack, rv =>
    let data := store gecko_path
    let stack' :=
      match data.children with
      | some children => children.reverse ++ stack
      | none => stack
    match get_suite_data_go store fuel stack' (insertMap gecko_path data rv) with
    | some (visited, rvFinal) => some (gecko_path :: visited, rvFinal)
    | none => none

/-- fn get_suite_data: the roots are pushed in order, so the last root is
on top of the stack when the loop starts. -/
def get_suite_data (store : Store) (fuel : Nat) (gecko_roots : List String) :
    Option (List String × List (String × PathCoverage)) :=
  get_suite_data_go store fuel gecko_roots.reverse []

/-- A finite coverage tree: the shape the coverage service is trusted to
return (acyclic, finitely branching). -/
inductive CovTree where
  | node (path : String) (children : List CovTree)
  deriving Repr

/-- Root path of a coverage tree. -/
def CovTree.path : CovTree → String
  | .node p _ => p

mutual

/-- Number of nodes of a coverage tree. -/
def CovTree.size : CovTree → Nat
  | .node _ cs => 1 + sizeForest cs

/-- Number of nodes of a forest of coverage trees. -/
def sizeForest : List CovTree → Nat
  | [] => 0
  | t :: ts => CovTree.size t + sizeForest ts

end

mutual

/-- The paths of all nodes of a coverage tree, in preorder. -/
def CovTree.labels : CovTree → List String
  | .node p cs => p :: labelsForest cs

/-- The paths of all nodes of a forest, in preorder. -/
def labelsForest : List CovTree → List String
  | [] => []
  | t :: ts => CovTree.labels t ++ labelsForest ts

end

mutual

/-- The store describes exactly this tree below its root: the children
field of the fetched node lists exactly the child paths in order (none is
how a file node, which has no children field, reads back). -/
def CovTree.agrees (store : Store) : CovTree → Bool
  | .node p cs =>
    (match (store p).children with
     | none => cs.isEmpty
     | some childPaths => childPaths == cs.map CovTree.path) &&
    agreesForest store cs

/-- Every tree of the forest agrees with the store. -/
def agreesForest (store : Store) : List CovTree → Bool
  | [] => true
  | t :: ts => CovTree.agrees store t && agreesForest store ts

end

theorem sizeForest_append (l₁ l₂ : List CovTree) :
    sizeForest (l₁ ++ l₂) = sizeForest l₁ + sizeForest l₂ := by
  induction l₁ with
  | nil => simp [sizeForest]
  | cons t ts ih => simp [sizeForest, ih]; omega

theorem sizeForest_reverse (l : List CovTree) :
    sizeForest l.reverse = sizeForest l := by
  induction l with
  | nil => rfl
  | cons t ts ih => simp [sizeForest, sizeForest_append, ih]; omega

/-- The order in which the stack-based walk visits the nodes of a forest
whose root paths sit on top of the stack in list order: the head root
first, then the forest formed by its reversed children followed by the
remaining trees. -/
def visitOrder : List CovTree → List String
  | [] => []
  | .node p cs :: ts => p :: visitOrder (cs.reverse ++ ts)
termination_by ts => sizeForest ts
decreasing_by
  simp [sizeForest, CovTree.size, sizeForest_append, sizeForest_reverse]


/-!  Helper lemmas about the diff engine. -/

theorem countC_five (l : List CoverageType) :
    countC CoverageType.NotRun l + countC CoverageType.NotCovered l +
      countC CoverageType.Suite1Only l + countC CoverageType.Suite2Only l +
      countC CoverageType.Both l = l.length := by
  induction l with
  | nil => rfl
  | cons x rest ih => cases x <;> simp [countC] <;> omega

theorem countC_eq_zero {c : CoverageType} {l : List CoverageType}
    (h : ∀ x ∈ l, x ≠ c) : countC c l = 0 := by
  induction l with
  | nil => rfl
  | cons x rest ih =>
    have hx := h x (by simp)
    simp [countC, hx, ih fun y hy => h y (by simp [hy])]

/-- The classification table of spec section 4.3, written from the words
of the spec for comparison with classifyPair. -/
def specTableClassify (x y : Int) : CoverageType :=
  if x = -1 ∧ y = -1 then CoverageType.NotRun
  else if x = 0 ∧ y = 0 then CoverageType.NotCovered
  else if 0 < x ∧ y ≤ 0 then CoverageType.Suite1Only
  else if x ≤ 0 ∧ 0 < y then CoverageType.Suite2Only
  else CoverageType.Both

/-- C10: the path-to-cache-file-name mapping (slashes become dashes, then
a .json suffix) is not injective: the distinct tree paths a/b and a-b are
mapped to the same cache file name, so within one changeset and suite the
cached document of one can be read back as the node of the other. -/
theorem c10_cache_name_not_injective :
    cache_file_name "a/b" = cache_file_name "a-b" ∧ ("a/b" : String) ≠ "a-b" := by
  constructor
  · decide
  · decide

/-- C7: for every pair of per-line sequences, coverable_count plus the
number of NotRun-classified positions equals line_count, and
covered_count equals the sum of the Suite1Only, Suite2Only and Both
counts. -/
theorem c7_count_invariants (s1 s2 : List Int) :
    (coverage_difference s1 s2).coverable_count +
        Int.ofNat (countC CoverageType.NotRun
          (coverage_difference s1 s2).line_differences) =
      (coverage_difference s1 s2).line_count ∧
    (coverage_difference s1 s2).covered_count =
      (coverage_difference s1 s2).suite_1_only_count +
        (coverage_difference s1 s2).suite_2_only_count +
        (coverage_difference s1 s2).both_count := by
  constructor
  · simp [coverage_difference]
  · simp [coverage_difference]
    omega

/-- C4: for equal-length sequences, every position is classified exactly
per the table of spec section 4.3, and the counts of the five categories
sum to line_count. -/
theorem c4_classification_table (s1 s2 : List Int) (h : s1.length = s2.length) :
    (coverage_difference s1 s2).line_differences =
      (s1.zip s2).map (fun p => specTableClassify p.1 p.2) ∧
    Int.ofNat
        (countC CoverageType.NotRun (coverage_difference s1 s2).line_differences +
         countC CoverageType.NotCovered (coverage_difference s1 s2).line_differences +
         countC CoverageType.Suite1Only (coverage_difference s1 s2).line_differences +
         countC CoverageType.Suite2Only (coverage_difference s1 s2).line_differences +
         countC CoverageType.Both (coverage_difference s1 s2).line_differences) =
      (coverage_difference s1 s2).line_count := by
  constructor
  · rfl
  · simp [coverage_difference, countC_five, List.length_zip, h]

theorem zip_take_take {α β : Type} :
    ∀ (m : Nat) (s1 : List α) (s2 : List β),
      (s1.take m).zip (s2.take m) = (s1.zip s2).take m
  | 0, _, _ => by simp
  | _ + 1, [], _ => by simp
  | _ + 1, _ :: _, [] => by simp
  | m + 1, x :: xs, y :: ys => by
    simp only [List.take_succ_cons, List.zip_cons_cons]
    rw [zip_take_take m xs ys]

theorem zip_self_eq_take_min {α β : Type} (s1 : List α) (s2 : List β) :
    s1.zip s2 = (s1.take (min s1.length s2.length)).zip
      (s2.take (min s1.length s2.length)) := by
  rw [zip_take_take]
  rw [List.take_of_length_le]
  simp [List.length_zip]

/-- C6: on sequences of unequal lengths, line_count is the minimum of the
two lengths and the whole result equals the result of comparing only the
first min positions, so the trailing positions of the longer sequence
contribute to no count; a result is returned (the function is total and
the warning print is the only effect of the mismatch). -/
theorem c6_length_mismatch (s1 s2 : List Int) (h : s1.length ≠ s2.length) :
    (coverage_difference s1 s2).line_count =
      Int.ofNat (min s1.length s2.length) ∧
    coverage_difference s1 s2 =
      coverage_difference (s1.take (min s1.length s2.length))
        (s2.take (min s1.length s2.length)) := by
  constructor
  · rfl
  · have hz := zip_self_eq_take_min s1 s2
    simp only [coverage_difference, ← hz]
    have hl1 : (s1.take (min s1.length s2.length)).length =
        min s1.length s2.length := by
      simp [List.length_take]
    have hl2 : (s2.take (min s1.length s2.length)).length =
        min s1.length s2.length := by
      simp [List.length_take]
    rw [hl1, hl2]
    simp

/-- C6 witness: the spec example with lengths 3 and 5. -/
theorem c6_length_mismatch_witness :
    ([0, 1, -1] : List Int).length ≠ ([0, 0, 0, 4, 5] : List Int).length ∧
    (coverage_difference [0, 1, -1] [0, 0, 0, 4, 5]).line_count =
      Int.ofNat (min ([0, 1, -1] : List Int).length
        ([0, 0, 0, 4, 5] : List Int).length) ∧
    coverage_difference [0, 1, -1] [0, 0, 0, 4, 5] =
      coverage_difference (([0, 1, -1] : List Int).take
          (min ([0, 1, -1] : List Int).length ([0, 0, 0, 4, 5] : List Int).length))
        (([0, 0, 0, 4, 5] : List Int).take
          (min ([0, 1, -1] : List Int).length ([0, 0, 0, 4, 5] : List Int).length)) :=
  ⟨by decide,
   (c6_length_mismatch [0, 1, -1] [0, 0, 0, 4, 5] (by decide)).1,
   (c6_length_mismatch [0, 1, -1] [0, 0, 0, 4, 5] (by decide)).2⟩

/-- C4 witness: the worked example of spec section 8, with equal lengths
5. -/
theorem c4_classification_table_witness :
    ([-1, 0, 3, 0, 5] : List Int).length = ([-1, 0, 0, 2, 5] : List Int).length ∧
    (coverage_difference [-1, 0, 3, 0, 5] [-1, 0, 0, 2, 5]).line_differences =
      (([-1, 0, 3, 0, 5] : List Int).zip ([-1, 0, 0, 2, 5] : List Int)).map
        (fun p => specTableClassify p.1 p.2) ∧
    Int.ofNat
        (countC CoverageType.NotRun
          (coverage_difference [-1, 0, 3, 0, 5] [-1, 0, 0, 2, 5]).line_differences +
         countC CoverageType.NotCovered
          (coverage_difference [-1, 0, 3, 0, 5] [-1, 0, 0, 2, 5]).line_differences +
         countC CoverageType.Suite1Only
          (coverage_difference [-1, 0, 3, 0, 5] [-1, 0, 0, 2, 5]).line_differences +
         countC CoverageType.Suite2Only
          (coverage_difference [-1, 0, 3, 0, 5] [-1, 0, 0, 2, 5]).line_differences +
         countC CoverageType.Both
          (coverage_difference [-1, 0, 3, 0, 5] [-1, 0, 0, 2, 5]).line_differences) =
      (coverage_difference [-1, 0, 3, 0, 5] [-1, 0, 0, 2, 5]).line_count :=
  ⟨by decide,
   (c4_classification_table [-1, 0, 3, 0, 5] [-1, 0, 0, 2, 5] (by decide)).1,
   (c4_classification_table [-1, 0, 3, 0, 5] [-1, 0, 0, 2, 5] (by decide)).2⟩

theorem zip_map_self {α β : Type} (f : α → β) :
    ∀ S : List α, S.zip (S.map f) = S.map fun x => (x, f x)
  | [] => by simp
  | x :: xs => by
    simp only [List.map_cons, List.zip_cons_cons, zip_map_self f xs]

theorem classify_against_zero (x : Int) (hx : -1 ≤ x) :
    classifyPair x (if x = -1 then -1 else 0) =
      if 0 < x then CoverageType.Suite1Only
      else if x = 0 then CoverageType.NotCovered
      else CoverageType.NotRun := by
  by_cases h1 : x = -1
  · subst h1
    simp [classifyPair]
  · have h0 : 0 ≤ x := by omega
    by_cases h2 : x = 0
    · subst h2
      simp [classifyPair]
    · have hpos : 0 < x := by omega
      simp [classifyPair, h1, h2, hpos]

/-- C1 counterexample: the claim quantifies over every integer sequence,
but on the singleton sequence with the entry -2 (negative yet not the -1
sentinel) the synthesized zero-coverage entry is 0, the pair falls to the
catch-all arm, and both_count is 1, not 0 as the claim requires. -/
theorem c1_counterexample :
    ¬ (coverage_difference [-2] (zero_coverage [-2])).both_count = 0 := by
  decide

/-- C1 (amended): for every sequence whose entries are all at least -1,
that is, the -1 sentinel or a nonnegative hit count, diffing the sequence
against its synthesized zero-coverage sequence classifies, position by
position, each positive entry Suite1Only, each 0 entry NotCovered and
each -1 entry NotRun, and both suite_2_only_count and both_count are 0. -/
theorem c1_zero_coverage_diff (S : List Int) (h : ∀ x ∈ S, -1 ≤ x) :
    (coverage_difference S (zero_coverage S)).line_differences =
      S.map (fun x =>
        if 0 < x then CoverageType.Suite1Only
        else if x = 0 then CoverageType.NotCovered
        else CoverageType.NotRun) ∧
    (coverage_difference S (zero_coverage S)).suite_2_only_count = 0 ∧
    (coverage_difference S (zero_coverage S)).both_count = 0 := by
  have hdiff : (coverage_difference S (zero_coverage S)).line_differences =
      S.map (fun x =>
        if 0 < x then CoverageType.Suite1Only
        else if x = 0 then CoverageType.NotCovered
        else CoverageType.NotRun) := by
    simp only [coverage_difference, zero_coverage]
    rw [zip_map_self, List.map_map]
    exact List.map_congr_left fun x hx => classify_against_zero x (h x hx)
  refine ⟨hdiff, ?_, ?_⟩
  · show Int.ofNat (countC CoverageType.Suite2Only
      (coverage_difference S (zero_coverage S)).line_differences) = 0
    rw [hdiff, countC_eq_zero]
    · rfl
    · intro c hc
      obtain ⟨x, _, hx⟩ := List.mem_map.mp hc
      subst hx
      split_ifs <;> simp
  · show Int.ofNat (countC CoverageType.Both
      (coverage_difference S (zero_coverage S)).line_differences) = 0
    rw [hdiff, countC_eq_zero]
    · rfl
    · intro c hc
      obtain ⟨x, _, hx⟩ := List.mem_map.mp hc
      subst hx
      split_ifs <;> simp

/-- C1 witness: a sequence exercising a positive, a zero and a -1 entry. -/
theorem c1_zero_coverage_diff_witness :
    (∀ x ∈ ([3, 0, -1, 1] : List Int), -1 ≤ x) ∧
    ((coverage_difference [3, 0, -1, 1] (zero_coverage [3, 0, -1, 1])).line_differences =
      ([3, 0, -1, 1] : List Int).map (fun x =>
        if 0 < x then CoverageType.Suite1Only
        else if x = 0 then CoverageType.NotCovered
        else CoverageType.NotRun) ∧
    (coverage_difference [3, 0, -1, 1] (zero_coverage [3, 0, -1, 1])).suite_2_only_count = 0 ∧
    (coverage_difference [3, 0, -1, 1] (zero_coverage [3, 0, -1, 1])).both_count = 0) :=
  ⟨by decide, c1_zero_coverage_diff [3, 0, -1, 1] (by decide)⟩

/-!  Lemmas relating lookupA to the two filterMap passes of
get_differences. -/

theorem lookupA_eq_none {α : Type} {p : String} :
    ∀ {l : List (String × α)}, p ∉ l.map Prod.fst → lookupA p l = none
  | [], _ => rfl
  | (k, v) :: rest, h => by
    have hk : k ≠ p := by
      intro hkp
      exact h (by simp [hkp])
    simp only [lookupA, if_neg hk]
    exact lookupA_eq_none fun hmem => h (by simp at hmem ⊢; exact Or.inr hmem)

theorem lookupA_mem {α : Type} {p : String} {v : α} :
    ∀ {l : List (String × α)}, lookupA p l = some v → (p, v) ∈ l
  | [], h => by simp [lookupA] at h
  | (k, w) :: rest, h => by
    by_cases hk : k = p
    · subst hk
      simp [lookupA] at h
      simp [h]
    · simp only [lookupA, if_neg hk] at h
      exact List.mem_cons_of_mem _ (lookupA_mem h)

theorem lookupA_append {α : Type} (p : String) :
    ∀ (l₁ l₂ : List (String × α)),
      lookupA p (l₁ ++ l₂) = (lookupA p l₁).or (lookupA p l₂)
  | [], l₂ => by simp [lookupA]
  | (k, v) :: rest, l₂ => by
    by_cases hk : k = p
    · simp [lookupA, hk]
    · simp only [List.cons_append, lookupA, if_neg hk]
      exact lookupA_append p rest l₂

theorem lookupA_filterMap {α β : Type} (p : String) (g : String → α → Option β) :
    ∀ (l : List (String × α)), keysNodup l →
      lookupA p (l.filterMap fun pr => (g pr.1 pr.2).map fun d => (pr.1, d)) =
        (lookupA p l).bind fun v => g p v
  | [], _ => rfl
  | (k, v) :: rest, hnd => by
    have hnd0 : k ∉ rest.map Prod.fst ∧ (rest.map Prod.fst).Nodup := by
      have h0 := hnd
      simp only [keysNodup, List.map_cons, List.nodup_cons] at h0
      exact h0
    have hnd' : keysNodup rest := hnd0.2
    have hknotin : k ∉ rest.map Prod.fst := hnd0.1
    by_cases hk : k = p
    · subst hk
      cases hgv : g k v with
      | some d =>
        simp [List.filterMap_cons, hgv, lookupA]
      | none =>
        simp only [List.filterMap_cons, hgv, Option.map_none']
        rw [lookupA_filterMap k g rest hnd']
        rw [lookupA_eq_none hknotin]
        simp [lookupA, hgv]
    · cases hgv : g k v with
      | some d =>
        simp only [List.filterMap_cons, hgv, Option.map_some']
        simp only [lookupA, if_neg hk]
        exact lookupA_filterMap p g rest hnd'
      | none =>
        simp only [List.filterMap_cons, hgv, Option.map_none']
        rw [lookupA_filterMap p g rest hnd']
        simp only [lookupA, if_neg hk]

/-- The value of the diff map at one path: the contribution of the first
loop when it produced one, otherwise the contribution of the second
loop. -/
theorem lookupA_get_differences (A B : CoverageMap)
    (hA : keysNodup A) (hB : keysNodup B) (p : String) :
    lookupA p (get_differences A B) =
      ((lookupA p A).bind fun n => diffEntry1 B p n).or
        ((lookupA p B).bind fun n => diffEntry2 A p n) := by
  unfold get_differences
  rw [lookupA_append, lookupA_filterMap p (fun q n => diffEntry1 B q n) A hA,
    lookupA_filterMap p (fun q n => diffEntry2 A q n) B hB]

/-!  Suite-swap symmetry of the diff engine. -/

/-- Exchanging the roles of the two suites in a classification. -/
def swapClass : CoverageType → CoverageType
  | CoverageType.Suite1Only => CoverageType.Suite2Only
  | CoverageType.Suite2Only => CoverageType.Suite1Only
  | c => c

/-- The mirror image of a diff result under exchanging the two suites. -/
def mirrorDifference (d : CoverageDifference) : CoverageDifference :=
  { line_differences := d.line_differences.map swapClass
    line_count := d.line_count
    coverable_count := d.coverable_count
    covered_count := d.covered_count
    suite_1_only_count := d.suite_2_only_count
    suite_2_only_count := d.suite_1_only_count
    both_count := d.both_count }

theorem classify_swap (x y : Int) :
    classifyPair y x = swapClass (classifyPair x y) := by
  unfold classifyPair
  split_ifs <;> simp_all [swapClass] <;> omega

theorem swapClass_eq_iff (x c : CoverageType) :
    swapClass x = c ↔ x = swapClass c := by
  cases x <;> cases c <;> simp [swapClass]

theorem countC_map_swap (c : CoverageType) :
    ∀ l : List CoverageType, countC c (l.map swapClass) = countC (swapClass c) l
  | [] => rfl
  | x :: rest => by
    simp only [List.map_cons, countC, countC_map_swap c rest, swapClass_eq_iff]

theorem coverage_difference_swap (s1 s2 : List Int) :
    coverage_difference s2 s1 = mirrorDifference (coverage_difference s1 s2) := by
  have hzip : s2.zip s1 = (s1.zip s2).map Prod.swap := (List.zip_swap s1 s2).symm
  have hld : (s2.zip s1).map (fun p => classifyPair p.1 p.2) =
      ((s1.zip s2).map fun p => classifyPair p.1 p.2).map swapClass := by
    rw [hzip, List.map_map, List.map_map]
    exact List.map_congr_left fun p _ => classify_swap p.1 p.2
  have hmin : min s2.length s1.length = min s1.length s2.length := Nat.min_comm _ _
  simp only [coverage_difference, mirrorDifference, hld, countC_map_swap, swapClass,
    hmin, CoverageDifference.mk.injEq]
  and_intros <;>
    first
      | trivial
      | exact congrArg Int.ofNat (by omega)

/-- The data-model invariant of spec section 3: a Directory node never
carries per-line coverage. -/
def dirNoCoverage (M : CoverageMap) : Prop :=
  ∀ pr ∈ M, (Prod.snd pr).path_type = "directory" → (Prod.snd pr).coverage = none

instance (M : CoverageMap) : Decidable (dirNoCoverage M) := by
  unfold dirNoCoverage
  exact List.decidableBAll _ M

/-- C3 counterexample: the claim quantifies over every pair of maps, but
the directory check of get_differences sits only in the loop over the
first map.  With A empty and B holding a directory-typed entry that
carries a coverage vector, diffing (A, B) produces an entry for the path
d while diffing (B, A) produces none, so the two results do not contain
the same set of paths. -/
theorem c3_counterexample :
    ¬ (lookupA "d" (get_differences []
          [("d", { changeset := "", children := none, linesCovered := 0,
                   linesMissed := 1, linesTotal := 1, name := "d", path := "d",
                   path_type := "directory", coverage := some [0] })]) = none ↔
       lookupA "d" (get_differences
          [("d", { changeset := "", children := none, linesCovered := 0,
                   linesMissed := 1, linesTotal := 1, name := "d", path := "d",
                   path_type := "directory", coverage := some [0] })] []) = none) := by
  decide

/-- C3 (amended): under the data-model invariant that a Directory-typed
entry never carries a coverage vector, diffing (A, B) and (B, A) yields
the same set of paths, and at each path the two results are mirror
images: the two suite-only counts are swapped, the per-line
classifications are swapped accordingly, and line_count, coverable_count,
covered_count and both_count are unchanged. -/
theorem c3_diff_symm (A B : CoverageMap) (hA : keysNodup A) (hB : keysNodup B)
    (hdA : dirNoCoverage A) (hdB : dirNoCoverage B) (p : String) :
    lookupA p (get_differences B A) =
      (lookupA p (get_differences A B)).map mirrorDifference := by
  rw [lookupA_get_differences B A hB hA p, lookupA_get_differences A B hA hB p]
  cases hA1 : lookupA p A with
  | none =>
    cases hB1 : lookupA p B with
    | none => simp
    | some n2 =>
      by_cases hdir2 : n2.path_type = "directory"
      · have hcov2 : n2.coverage = none := hdB (p, n2) (lookupA_mem hB1) hdir2
        simp [diffEntry1, diffEntry2, hdir2, hcov2, hA1]
      · cases hcov2 : n2.coverage with
        | none => simp [diffEntry1, diffEntry2, hdir2, hcov2, hA1]
        | some v2 =>
          simp [diffEntry1, diffEntry2, hdir2, hcov2, hA1]
          exact coverage_difference_swap (zero_coverage v2) v2
  | some n1 =>
    cases hB1 : lookupA p B with
    | none =>
      by_cases hdir1 : n1.path_type = "directory"
      · have hcov1 : n1.coverage = none := hdA (p, n1) (lookupA_mem hA1) hdir1
        simp [diffEntry1, diffEntry2, hdir1, hcov1, hA1, hB1]
      · cases hcov1 : n1.coverage with
        | none => simp [diffEntry1, diffEntry2, hdir1, hcov1, hA1, hB1]
        | some v1 =>
          simp [diffEntry1, diffEntry2, hdir1, hcov1, hA1, hB1]
          exact coverage_difference_swap v1 (zero_coverage v1)
    | some n2 =>
      by_cases hdir1 : n1.path_type = "directory"
      · have hcov1 : n1.coverage = none := hdA (p, n1) (lookupA_mem hA1) hdir1
        by_cases hdir2 : n2.path_type = "directory"
        · have hcov2 : n2.coverage = none := hdB (p, n2) (lookupA_mem hB1) hdir2
          simp [diffEntry1, diffEntry2, hdir1, hdir2, hcov1, hcov2, hA1, hB1]
        · simp [diffEntry1, diffEntry2, hdir1, hdir2, hcov1, hA1, hB1]
          cases n2.coverage <;> rfl
      · by_cases hdir2 : n2.path_type = "directory"
        · have hcov2 : n2.coverage = none := hdB (p, n2) (lookupA_mem hB1) hdir2
          simp [diffEntry1, diffEntry2, hdir1, hdir2, hcov2, hA1, hB1]
          cases n1.coverage <;> rfl
        · cases hcov1 : n1.coverage with
          | none =>
            simp [diffEntry1, diffEntry2, hdir1, hdir2, hcov1, hA1, hB1]
            cases n2.coverage <;> rfl
          | some v1 =>
            cases hcov2 : n2.coverage with
            | none => simp [diffEntry1, diffEntry2, hdir1, hdir2, hcov1, hcov2, hA1, hB1]
            | some v2 =>
              simp [diffEntry1, diffEntry2, hdir1, hdir2, hcov1, hcov2, hA1, hB1]
              exact coverage_difference_swap v1 v2

/-- Example file node of suite 1 (used by witnesses). -/
def exNodeA : PathCoverage :=
  { changeset := "abc", children := none, linesCovered := 1, linesMissed := 1,
    linesTotal := 3, name := "a.js", path := "a.js", path_type := "file",
    coverage := some [1, 0, -1] }

/-- Example file node of suite 2 (used by witnesses). -/
def exNodeB : PathCoverage :=
  { changeset := "abc", children := none, linesCovered := 1, linesMissed := 0,
    linesTotal := 1, name := "b.js", path := "b.js", path_type := "file",
    coverage := some [2] }

/-- Example directory node without coverage (used by witnesses). -/
def exNodeDir : PathCoverage :=
  { changeset := "abc", children := some ["a.js"], linesCovered := 1,
    linesMissed := 1, linesTotal := 3, name := "dir", path := "dir",
    path_type := "directory", coverage := none }

/-- C3 witness: two small one-file maps with the invariant satisfied. -/
theorem c3_diff_symm_witness :
    keysNodup [("a.js", exNodeA)] ∧ keysNodup [("b.js", exNodeB)] ∧
    dirNoCoverage [("a.js", exNodeA)] ∧ dirNoCoverage [("b.js", exNodeB)] ∧
    lookupA "a.js" (get_differences [("b.js", exNodeB)] [("a.js", exNodeA)]) =
      (lookupA "a.js" (get_differences [("a.js", exNodeA)] [("b.js", exNodeB)])).map
        mirrorDifference :=
  ⟨by decide, by decide, by decide, by decide,
   c3_diff_symm [("a.js", exNodeA)] [("b.js", exNodeB)]
     (by decide) (by decide) (by decide) (by decide) "a.js"⟩

/-- C2 counterexample: the claim says a Directory-typed map entry never
produces a diff entry regardless of its content and of which map holds
it, but a directory entry of the suite 2 map that carries a coverage
vector and whose path is absent from the suite 1 map does produce one
(the second loop of get_differences has no directory check). -/
theorem c2_counterexample_entry_produced :
    ( { changeset := "", children := none, linesCovered := 0,
        linesMissed := 1, linesTotal := 1, name := "d", path := "d",
        path_type := "directory",
        coverage := some [0] } : PathCoverage).path_type = "directory" ∧
    ¬ lookupA "d" (get_differences []
        [("d", { changeset := "", children := none, linesCovered := 0,
                 linesMissed := 1, linesTotal := 1, name := "d", path := "d",
                 path_type := "directory", coverage := some [0] })]) = none := by
  constructor
  · rfl
  · decide

/-- C2 (amended): a Directory-typed entry of the suite 1 map never
produces a diff entry; a Directory-typed entry of the suite 2 map
produces none provided it carries no per-line coverage vector (as the
data model requires of directory nodes). -/
theorem c2_directory_no_entry (A B : CoverageMap)
    (hA : keysNodup A) (hB : keysNodup B) (p : String) (n : PathCoverage)
    (h : (lookupA p A = some n ∧ n.path_type = "directory") ∨
         (lookupA p B = some n ∧ n.path_type = "directory" ∧ n.coverage = none)) :
    lookupA p (get_differences A B) = none := by
  rw [lookupA_get_differences A B hA hB p]
  rcases h with ⟨hA1, hdir⟩ | ⟨hB1, hdir, hcov⟩
  · cases hB1 : lookupA p B with
    | none => simp [hA1, hB1, diffEntry1, diffEntry2, hdir]
    | some n2 => simp [hA1, hB1, diffEntry1, diffEntry2, hdir]
  · cases hA1 : lookupA p A with
    | none => simp [hA1, hB1, diffEntry1, diffEntry2, hcov]
    | some n1 =>
      by_cases hdir1 : n1.path_type = "directory"
      · simp [hA1, hB1, diffEntry1, diffEntry2, hdir1]
      · cases hcov1 : n1.coverage with
        | none => simp [hA1, hB1, diffEntry1, diffEntry2, hdir1, hcov1]
        | some v1 => simp [hA1, hB1, diffEntry1, diffEntry2, hdir1, hcov1, hcov]

/-- C2 witness: a coverage-free directory entry of the suite 2 map,
absent from suite 1, yields no diff entry. -/
theorem c2_directory_no_entry_witness :
    keysNodup ([] : CoverageMap) ∧ keysNodup [("dir", exNodeDir)] ∧
    ((lookupA "dir" ([] : CoverageMap) = some exNodeDir ∧
        exNodeDir.path_type = "directory") ∨
     (lookupA "dir" [("dir", exNodeDir)] = some exNodeDir ∧
        exNodeDir.path_type = "directory" ∧ exNodeDir.coverage = none)) ∧
    lookupA "dir" (get_differences [] [("dir", exNodeDir)]) = none :=
  ⟨by decide, by decide, Or.inr ⟨by decide, by decide, by decide⟩,
   c2_directory_no_entry [] [("dir", exNodeDir)] (by decide) (by decide)
     "dir" exNodeDir (Or.inr ⟨by decide, by decide, by decide⟩)⟩

/-- C5 counterexample: the claim quantifies over every entry carrying a
coverage vector, but a directory-typed suite 1 entry that carries one and
is absent from suite 2 is skipped by the directory check, so no diff
result exists for its path at all, contradicting the claimed equality. -/
theorem c5_counterexample :
    ¬ lookupA "d" (get_differences
        [("d", { changeset := "", children := none, linesCovered := 1,
                 linesMissed := 0, linesTotal := 1, name := "d", path := "d",
                 path_type := "directory", coverage := some [1] })] []) =
      some (coverage_difference [1] (zero_coverage [1])) := by
  decide

/-- C5 (amended): for every non-Directory-typed suite 1 entry carrying a
per-line coverage vector whose path is entirely absent from the suite 2
map, the diff result at that path is exactly the classification of the
suite 1 vector against its synthesized zero-coverage vector; a result is
produced rather than an error. -/
theorem c5_missing_path_zero (A B : CoverageMap)
    (hA : keysNodup A) (hB : keysNodup B) (p : String) (n : PathCoverage)
    (v : List Int) (hp : lookupA p A = some n)
    (hdir : ¬ n.path_type = "directory") (hcov : n.coverage = some v)
    (habs : lookupA p B = none) :
    lookupA p (get_differences A B) =
      some (coverage_difference v (zero_coverage v)) := by
  rw [lookupA_get_differences A B hA hB p]
  simp [hp, habs, diffEntry1, hdir, hcov]

/-- C5 witness: the spec example of a file with coverage of two covered
lines in suite 1 and no suite 2 entry. -/
theorem c5_missing_path_zero_witness :
    keysNodup [("a.js", exNodeA)] ∧ keysNodup ([] : CoverageMap) ∧
    lookupA "a.js" [("a.js", exNodeA)] = some exNodeA ∧
    ¬ exNodeA.path_type = "directory" ∧
    exNodeA.coverage = some [1, 0, -1] ∧
    lookupA "a.js" ([] : CoverageMap) = none ∧
    lookupA "a.js" (get_differences [("a.js", exNodeA)] []) =
      some (coverage_difference [1, 0, -1] (zero_coverage [1, 0, -1])) :=
  ⟨by decide, by decide, by decide, by decide, by decide, by decide,
   c5_missing_path_zero [("a.js", exNodeA)] [] (by decide) (by decide)
     "a.js" exNodeA [1, 0, -1] (by decide) (by decide) (by decide) (by decide)⟩

/-!  Correctness of the tree walk. -/

/-- Record the fetched node of every path of the list, in order, into the
result map. -/
def insertAll (store : Store) (rv : List (String × PathCoverage))
    (ps : List String) : List (String × PathCoverage) :=
  ps.foldl (fun m q => insertMap q (store q) m) rv

theorem agreesForest_all (store : Store) :
    ∀ l : List CovTree, agreesForest store l = true ↔
      ∀ t ∈ l, CovTree.agrees store t = true
  | [] => by simp [agreesForest]
  | t :: ts => by
    simp [agreesForest, agreesForest_all store ts]

theorem agreesForest_append_reverse (store : Store) (l₁ l₂ : List CovTree)
    (h₁ : agreesForest store l₁ = true) (h₂ : agreesForest store l₂ = true) :
    agreesForest store (l₁.reverse ++ l₂) = true := by
  rw [agreesForest_all] at h₁ h₂ ⊢
  intro t ht
  rcases List.mem_append.mp ht with h | h
  · exact h₁ t (List.mem_reverse.mp h)
  · exact h₂ t h

theorem labelsForest_append :
    ∀ l₁ l₂ : List CovTree,
      labelsForest (l₁ ++ l₂) = labelsForest l₁ ++ labelsForest l₂
  | [], _ => rfl
  | t :: ts, l₂ => by
    simp [labelsForest, labelsForest_append ts l₂]

theorem labelsForest_reverse_perm :
    ∀ l : List CovTree, List.Perm (labelsForest l.reverse) (labelsForest l)
  | [] => List.Perm.refl _
  | t :: ts => by
    simp only [List.reverse_cons, labelsForest_append, labelsForest]
    have h1 : List.Perm (labelsForest ts.reverse ++ labelsForest [t])
        (labelsForest [t] ++ labelsForest ts.reverse) := List.perm_append_comm
    have h2 : List.Perm (labelsForest [t] ++ labelsForest ts.reverse)
        (labelsForest [t] ++ labelsForest ts) :=
      (labelsForest_reverse_perm ts).append_left _
    have h3 := h1.trans h2
    simp only [labelsForest, List.append_nil] at h3 ⊢
    exact h3

theorem lookupA_insertMap {α : Type} (q k : String) (v : α) :
    ∀ m : List (String × α),
      lookupA q (insertMap k v m) = if k = q then some v else lookupA q m
  | [] => by
    by_cases hk : k = q <;> simp [insertMap, lookupA, hk]
  | (k', v') :: rest => by
    by_cases hk' : k' = k
    · subst hk'
      by_cases hk : k' = q <;> simp [insertMap, lookupA, hk]
    · by_cases hq : k' = q
      · subst hq
        have : ¬ k = k' := fun h => hk' h.symm
        simp [insertMap, lookupA, hk', this]
      · simp [insertMap, lookupA, hk', hq, lookupA_insertMap q k v rest]

theorem lookupA_insertAll (store : Store) (q : String) :
    ∀ (ps : List String) (rv : List (String × PathCoverage)),
      lookupA q (insertAll store rv ps) =
        if q ∈ ps then some (store q) else lookupA q rv
  | [], rv => by simp [insertAll]
  | k :: ps, rv => by
    have step : insertAll store rv (k :: ps) =
        insertAll store (insertMap k (store k) rv) ps := rfl
    rw [step, lookupA_insertAll store q ps (insertMap k (store k) rv),
      lookupA_insertMap q k (store k) rv]
    by_cases hq : q ∈ ps
    · simp [hq]
    · by_cases hk : k = q
      · simp [hq, hk]
      · have : ¬ q ∈ k :: ps := by
          intro hmem
          rcases List.mem_cons.mp hmem with h | h
          · exact hk h.symm
          · exact hq h
        simp [hq, hk, this]

theorem visitOrder_cons (p : String) (cs ts : List CovTree) :
    visitOrder (CovTree.node p cs :: ts) = p :: visitOrder (cs.reverse ++ ts) := by
  rw [visitOrder]

theorem visitOrder_perm (n : Nat) :
    ∀ ts : List CovTree, sizeForest ts = n →
      List.Perm (visitOrder ts) (labelsForest ts) := by
  induction n using Nat.strong_induction_on with
  | _ n ih =>
    intro ts hsize
    cases ts with
    | nil =>
      rw [visitOrder]
      exact List.Perm.refl _
    | cons t ts' =>
      cases t with
      | node p cs =>
        have hm : sizeForest (cs.reverse ++ ts') =
            sizeForest cs + sizeForest ts' := by
          rw [sizeForest_append, sizeForest_reverse]
        have hlt : sizeForest (cs.reverse ++ ts') < n := by
          have : sizeForest (CovTree.node p cs :: ts') =
              1 + sizeForest cs + sizeForest ts' := by
            simp [sizeForest, CovTree.size]
          omega
        have hrec := ih _ hlt (cs.reverse ++ ts') rfl
        rw [visitOrder_cons]
        have hlab : List.Perm (labelsForest (cs.reverse ++ ts'))
            (labelsForest cs ++ labelsForest ts') := by
          rw [labelsForest_append]
          exact (labelsForest_reverse_perm cs).append_right _
        have : List.Perm (p :: visitOrder (cs.reverse ++ ts'))
            (p :: (labelsForest cs ++ labelsForest ts')) :=
          (hrec.trans hlab).cons p
        simp only [labelsForest, CovTree.labels]
        exact this

theorem go_forest (store : Store) :
    ∀ (n : Nat) (ts : List CovTree), sizeForest ts = n →
      agreesForest store ts = true →
      ∀ (f : Nat) (rest : List String) (rv : List (String × PathCoverage)),
        get_suite_data_go store (n + f) (ts.map CovTree.path ++ rest) rv =
          (get_suite_data_go store f rest (insertAll store rv (visitOrder ts))).map
            (fun pr => (visitOrder ts ++ pr.1, pr.2)) := by
  intro n
  induction n using Nat.strong_induction_on with
  | _ n ih =>
    intro ts hsize hagree f rest rv
    cases ts with
    | nil =>
      subst hsize
      rw [visitOrder]
      simp only [sizeForest, List.map_nil, List.nil_append, Nat.zero_add]
      have : insertAll store rv [] = rv := rfl
      rw [this]
      cases get_suite_data_go store f rest rv <;> simp
    | cons t ts' =>
      cases t with
      | node p cs =>
        have hsz : n = sizeForest (cs.reverse ++ ts') + 1 := by
          have h1 : sizeForest (CovTree.node p cs :: ts') =
              1 + sizeForest cs + sizeForest ts' := by
            simp [sizeForest, CovTree.size]
          have h2 : sizeForest (cs.reverse ++ ts') =
              sizeForest cs + sizeForest ts' := by
            rw [sizeForest_append, sizeForest_reverse]
          omega
        have hagree1 : CovTree.agrees store (CovTree.node p cs) = true ∧
            agreesForest store ts' = true := by
          have := hagree
          simp only [agreesForest, Bool.and_eq_true] at this
          exact this
        have hagreecs : agreesForest store cs = true := by
          have := hagree1.1
          simp only [CovTree.agrees, Bool.and_eq_true] at this
          exact this.2
        have hagree' : agreesForest store (cs.reverse ++ ts') = true :=
          agreesForest_append_reverse store cs ts' hagreecs hagree1.2
        have hstack : (match (store p).children with
            | some children => children.reverse ++ (ts'.map CovTree.path ++ rest)
            | none => ts'.map CovTree.path ++ rest) =
            (cs.reverse ++ ts').map CovTree.path ++ rest := by
          have := hagree1.1
          simp only [CovTree.agrees, Bool.and_eq_true] at this
          cases hch : (store p).children with
          | none =>
            rw [hch] at this
            have hcs : cs = [] := by
              have h0 := this.1
              simpa using h0
            subst hcs
            simp
          | some l =>
            rw [hch] at this
            have hl : l = cs.map CovTree.path := by
              have h0 := this.1
              simpa using h0
            subst hl
            simp [List.map_reverse]
        have hrec := ih _ (by omega) (cs.reverse ++ ts') rfl hagree' f rest
          (insertMap p (store p) rv)
        have hstep : get_suite_data_go store (n + f)
            ((CovTree.node p cs :: ts').map CovTree.path ++ rest) rv =
            match get_suite_data_go store (sizeForest (cs.reverse ++ ts') + f)
              ((cs.reverse ++ ts').map CovTree.path ++ rest)
              (insertMap p (store p) rv) with
            | some (visited, rvFinal) => some (p :: visited, rvFinal)
            | none => none := by
          have hn : n + f = (sizeForest (cs.reverse ++ ts') + f) + 1 := by omega
          rw [hn]
          simp only [List.map_cons, List.cons_append, CovTree.path]
          rw [get_suite_data_go]
          rw [hstack]
        rw [hstep, hrec, visitOrder_cons]
        have hins : insertAll store rv (p :: visitOrder (cs.reverse ++ ts')) =
            insertAll store (insertMap p (store p) rv)
              (visitOrder (cs.reverse ++ ts')) := rfl
        rw [hins]
        cases get_suite_data_go store f rest
            (insertAll store (insertMap p (store p) rv)
              (visitOrder (cs.reverse ++ ts'))) with
        | none => rfl
        | some pr => simp

/-- C8: for every set of roots and every store that describes an acyclic
finite tree (here: a forest value whose labels match the store and are
pairwise distinct, one tree per root), the stack-based walk of
get_suite_data terminates — the fuel equal to the number of reachable
nodes suffices — and the list of fetched paths visits every reachable
path exactly once (it has no duplicates and contains exactly the labels),
with every reachable node recorded in the result map under its path. -/
theorem c8_walk_terminates (store : Store) (gecko_roots : List String)
    (forest : List CovTree)
    (hroots : gecko_roots = forest.map CovTree.path)
    (hagree : agreesForest store forest = true)
    (hnodup : (labelsForest forest).Nodup) :
    ∃ visited finalMap,
      get_suite_data store (sizeForest forest) gecko_roots =
        some (visited, finalMap) ∧
      visited.Nodup ∧
      (∀ p, p ∈ visited ↔ p ∈ labelsForest forest) ∧
      (∀ p ∈ labelsForest forest, lookupA p finalMap = some (store p)) := by
  subst hroots
  have hagree2 : agreesForest store forest.reverse = true := by
    rw [agreesForest_all] at hagree ⊢
    intro t ht
    exact hagree t (List.mem_reverse.mp ht)
  have hmain := go_forest store (sizeForest forest.reverse) forest.reverse rfl
    hagree2 0 [] []
  have hperm : List.Perm (visitOrder forest.reverse) (labelsForest forest) :=
    (visitOrder_perm (sizeForest forest.reverse) forest.reverse rfl).trans
      (labelsForest_reverse_perm forest)
  refine ⟨visitOrder forest.reverse,
    insertAll store [] (visitOrder forest.reverse), ?_, ?_, ?_, ?_⟩
  · unfold get_suite_data
    rw [← sizeForest_reverse forest]
    have hstack : (forest.map CovTree.path).reverse =
        forest.reverse.map CovTree.path ++ [] := by
      simp [List.map_reverse]
    rw [hstack]
    rw [Nat.add_zero] at hmain
    rw [hmain]
    have h0 : get_suite_data_go store 0 ([] : List String)
        (insertAll store [] (visitOrder forest.reverse)) =
        some ([], insertAll store [] (visitOrder forest.reverse)) := by
      rw [get_suite_data_go]
    rw [h0]
    simp
  · exact hperm.symm.nodup hnodup
  · intro p
    exact hperm.mem_iff
  · intro p hp
    rw [lookupA_insertAll]
    simp [hperm.mem_iff.mpr hp]

/-- Example store for the walk witness: a directory root with two file
children. -/
def exStore : Store := fun p =>
  if p = "root" then
    { changeset := "abc", children := some ["x.js", "y.js"], linesCovered := 2,
      linesMissed := 1, linesTotal := 3, name := "root", path := "root",
      path_type := "directory", coverage := none }
  else
    { changeset := "abc", children := none, linesCovered := 1, linesMissed := 1,
      linesTotal := 2, name := p, path := p, path_type := "file",
      coverage := some [1, 0] }

/-- Example forest matching exStore from the root path. -/
def exForest : List CovTree :=
  [CovTree.node "root" [CovTree.node "x.js" [], CovTree.node "y.js" []]]

/-- C8 witness: the walk over the three-node example tree. -/
theorem c8_walk_terminates_witness :
    (["root"] : List String) = exForest.map CovTree.path ∧
    agreesForest exStore exForest = true ∧
    (labelsForest exForest).Nodup ∧
    (∃ visited finalMap,
      get_suite_data exStore (sizeForest exForest) ["root"] =
        some (visited, finalMap) ∧
      visited.Nodup ∧
      (∀ p, p ∈ visited ↔ p ∈ labelsForest exForest) ∧
      (∀ p ∈ labelsForest exForest, lookupA p finalMap = some (exStore p))) :=
  ⟨by decide, by decide, by decide,
   c8_walk_terminates exStore ["root"] exForest (by decide) (by decide)
     (by decide)⟩
